import Mathlib

/-!
Verification of the transaction-classification and daily-aggregation pipeline of
scripts/fetch_mlb_injuries_transactions.py.

The Python source is shallowly embedded: every pure helper of the script
becomes an executable Lean definition over lists of characters and
structures with the same field names as the Python dictionaries.  Regular
expression searches are embedded as explicit existence-of-occurrence
predicates: each pattern of the script is a sequence of literal word-bounded
tokens separated by non-greedy gaps, and for the existence question answered
by re.search a pattern of that shape matches iff the tokens occur in order
at word boundaries with no newline inside the gaps (the dot of Python's re
does not match a newline; greediness is irrelevant for match existence).
Case-insensitive search over the text equals case-sensitive search of the
lowercase pattern over the lowercased text for these ASCII patterns, so all
searches below run over the lowercased text.  Character classes are modelled
at ASCII precision, which the claims under study never leave.
-/

/-- ASCII lowercase of one character, modelling str.lower of the script's
ASCII descriptions. -/
def pyToLower (c : Char) : Char := c.toLower

/-- Python str.strip: drop leading and trailing whitespace. -/
def pyStrip (s : List Char) : List Char :=
  ((s.dropWhile Char.isWhitespace).reverse.dropWhile Char.isWhitespace).reverse

/-- Word character for the regex metacharacter of word boundaries:
alphanumeric or underscore. -/
def isWordChar (c : Char) : Bool := c.isAlphanum || c == '_'

/-- The literal word w occurs in s at position i (chars i .. i+|w|-1 agree). -/
def matchesAt (s : List Char) (i : Nat) (w : List Char) : Bool :=
  decide (i + w.length ≤ s.length) &&
    (List.range w.length).all (fun j => s.getD (i + j) ' ' == w.getD j ' ')

/-- Python substring containment (the in operator on str). -/
def containsSub (s w : List Char) : Bool :=
  (List.range (s.length + 1)).any (fun i => matchesAt s i w)

/-- The token w (which starts and ends with a word character) occurs at
position i of s with a word boundary on each side. -/
def tokenAt (s : List Char) (i : Nat) (w : List Char) : Bool :=
  matchesAt s i w &&
    (i == 0 || !isWordChar (s.getD (i - 1) ' ')) &&
    (i + w.length == s.length || !isWordChar (s.getD (i + w.length) ' '))

/-- No newline among chars a .. b-1 of s: a gap the regex dot may span. -/
def noNewlineSeg (s : List Char) (a b : Nat) : Bool :=
  (List.range (b - a)).all (fun t => !(s.getD (a + t) ' ' == '\n'))

/-- Search for a single word-bounded token anywhere in s. -/
def tokenSearch (s w : List Char) : Bool :=
  (List.range (s.length + 1)).any (fun i => tokenAt s i w)

/-- INJURY_KEYWORDS of the script. -/
def INJURY_KEYWORDS : List (List Char) :=
  ["injured list".toList, "disabled list".toList,
   "concussion injured list".toList, "covid-19 injured list".toList,
   "rehab assignment".toList]

/-- After a newline-free non-greedy gap starting at p, a word-bounded
occurrence of injured list or disabled list: the common tail of the IL
patterns of the script. -/
def ilMentionAfter (s : List Char) (p : Nat) : Bool :=
  (List.range (s.length + 1)).any fun m =>
    decide (p ≤ m) && noNewlineSeg s p m &&
    (tokenAt s m ("injured list".toList) ||
     tokenAt s m ("disabled list".toList))

/-- IL_PLACEMENT_RE searched on the text: tokens placed, on the, then
injured list or disabled list, in order, word-bounded, newline-free gaps. -/
def ilPlacementSearch (s : List Char) : Bool :=
  (List.range (s.length + 1)).any fun i =>
    tokenAt s i ("placed".toList) &&
    ((List.range (s.length + 1)).any fun j =>
      decide (i + 6 ≤ j) && noNewlineSeg s (i + 6) j &&
      tokenAt s j ("on the".toList) && ilMentionAfter s (j + 6))

/-- IL_TRANSFER_RE searched on the text: transferred, an IL mention, to the,
an IL mention, where the gap after the first IL mention starts right after
whichever alternative matched. -/
def ilTransferSearch (s : List Char) : Bool :=
  (List.range (s.length + 1)).any fun i =>
    tokenAt s i ("transferred".toList) &&
    ((List.range (s.length + 1)).any fun j =>
      decide (i + 11 ≤ j) && noNewlineSeg s (i + 11) j &&
      ((tokenAt s j ("injured list".toList) &&
        ((List.range (s.length + 1)).any fun k =>
          decide (j + 12 ≤ k) && noNewlineSeg s (j + 12) k &&
          tokenAt s k ("to the".toList) && ilMentionAfter s (k + 6))) ||
       (tokenAt s j ("disabled list".toList) &&
        ((List.range (s.length + 1)).any fun k =>
          decide (j + 13 ≤ k) && noNewlineSeg s (j + 13) k &&
          tokenAt s k ("to the".toList) && ilMentionAfter s (k + 6)))))

/-- Tail of IL_ACTIVATION_RE from position p: from the, then an IL
mention. -/
def fromTheThenIl (s : List Char) (p : Nat) : Bool :=
  (List.range (s.length + 1)).any fun j =>
    decide (p ≤ j) && noNewlineSeg s p j &&
    tokenAt s j ("from the".toList) && ilMentionAfter s (j + 8)

/-- IL_ACTIVATION_RE searched on the text: activated or reinstated, from
the, an IL mention. -/
def ilActivationSearch (s : List Char) : Bool :=
  (List.range (s.length + 1)).any fun i =>
    ((tokenAt s i ("activated".toList) && fromTheThenIl s (i + 9)) ||
     (tokenAt s i ("reinstated".toList) && fromTheThenIl s (i + 10)))

/-- One alternative of IL_DAY_CLASS_RE at position i: the day-count group
followed by -day and an IL mention, word-bounded at both ends.  At a fixed
position at most one alternative can match, since the four day counts are
pairwise non-prefixes of one another. -/
def dayClassAt (s : List Char) (i : Nat) : Option String :=
  if tokenAt s i ("7-day injured list".toList) ||
     tokenAt s i ("7-day disabled list".toList) then some "7-day"
  else if tokenAt s i ("10-day injured list".toList) ||
          tokenAt s i ("10-day disabled list".toList) then some "10-day"
  else if tokenAt s i ("15-day injured list".toList) ||
          tokenAt s i ("15-day disabled list".toList) then some "15-day"
  else if tokenAt s i ("60-day injured list".toList) ||
          tokenAt s i ("60-day disabled list".toList) then some "60-day"
  else none

/-- Leftmost match of IL_DAY_CLASS_RE, returning the formatted group, as in
the il_days_bucket computation of classify_injury. -/
def ilDayClassSearch (s : List Char) : Option String :=
  (List.range (s.length + 1)).findSome? (dayClassAt s)

/-- Truth as the Python int() of a bool: the flag columns of the script. -/
def toInt01 (b : Bool) : Nat := if b then 1 else 0

/-- Result record of classify_injury, field for field the returned dict. -/
structure Flags where
  is_injury_related : Nat
  injury_event_type : String
  is_il_placement : Nat
  is_il_activation : Nat
  is_il_transfer : Nat
  is_rehab_assignment : Nat
  is_covid_il : Nat
  il_days_bucket : Option String
  count_as_new_injury_registration : Nat
deriving DecidableEq, Repr

/-- classify_injury of the script.  The argument plays the role of the
Python parameter after the defaulting (description or ""), which is the
identity on actual strings. -/
def classify_injury (description : String) : Flags :=
  let text := pyStrip description.toList
  let lower := text.map pyToLower
  let is_injury_related := INJURY_KEYWORDS.any (fun k => containsSub lower k)
  let is_il_placement := ilPlacementSearch lower
  let is_il_transfer := ilTransferSearch lower
  let is_il_activation := ilActivationSearch lower
  let is_rehab_assignment := tokenSearch lower ("rehab assignment".toList)
  let is_covid_il := containsSub lower ("covid-19 injured list".toList)
  let count_as_new_injury_registration := is_il_placement && !is_il_transfer
  let injury_event_type :=
    if is_il_transfer then "il_transfer"
    else if is_il_placement then "il_placement"
    else if is_il_activation then "il_activation"
    else if is_rehab_assignment then "rehab_assignment"
    else if is_injury_related then "injury_other"
    else "non_injury"
  let il_days_bucket :=
    match ilDayClassSearch lower with
    | some b => some b
    | none =>
      if containsSub lower ("covid-19 injured list".toList) then
        some "covid-19"
      else if containsSub lower ("concussion injured list".toList) ||
              containsSub lower ("concussion disabled list".toList) then
        some "concussion"
      else none
  { is_injury_related := toInt01 is_injury_related
    injury_event_type := injury_event_type
    is_il_placement := toInt01 is_il_placement
    is_il_activation := toInt01 is_il_activation
    is_il_transfer := toInt01 is_il_transfer
    is_rehab_assignment := toInt01 is_rehab_assignment
    is_covid_il := toInt01 is_covid_il
    il_days_bucket := il_days_bucket
    count_as_new_injury_registration :=
      toInt01 count_as_new_injury_registration }
/-- Nested person object of a transaction, as documented by the API shape
the script consumes. -/
structure PersonRec where
  id : Option Int
  fullName : Option String
deriving DecidableEq, Repr

/-- Nested team object of a transaction. -/
structure TeamRec where
  id : Option Int
  name : Option String
deriving DecidableEq, Repr

/-- One element of the transactions array of the API response: every field
optional, as the script assumes via dict.get. -/
structure Tx where
  id : Option Int
  date : Option String
  effectiveDate : Option String
  resolutionDate : Option String
  typeCode : Option String
  typeDesc : Option String
  description : Option String
  person : Option PersonRec
  fromTeam : Option TeamRec
  toTeam : Option TeamRec
deriving DecidableEq, Repr

/-- safe_get of the script on the person object: None when the object is
absent (or not a dict), else the field. -/
def safe_get_person_id (o : Option PersonRec) : Option Int :=
  match o with
  | some p => p.id
  | none => none

/-- safe_get on the person object for the fullName field. -/
def safe_get_person_name (o : Option PersonRec) : Option String :=
  match o with
  | some p => p.fullName
  | none => none

/-- safe_get on a team object for the id field. -/
def safe_get_team_id (o : Option TeamRec) : Option Int :=
  match o with
  | some t => t.id
  | none => none

/-- safe_get on a team object for the name field. -/
def safe_get_team_name (o : Option TeamRec) : Option String :=
  match o with
  | some t => t.name
  | none => none

/-- Python a or b on optional strings: b when a is None or the empty string
(falsy), else a. -/
def pyOrStr (a b : Option String) : Option String :=
  match a with
  | some s => if s = "" then b else some s
  | none => b

/-- choose_event_date of the script: the falsy-skipping or-chain over date,
effectiveDate, resolutionDate. -/
def choose_event_date (tx : Tx) : Option String :=
  pyOrStr tx.date (pyOrStr tx.effectiveDate tx.resolutionDate)

/-- ASCII decimal digit test. -/
def isAsciiDigit (c : Char) : Bool := decide ('0' ≤ c) && decide (c ≤ '9')

/-- Grammar of a Python int literal body after the sign: digits, with single
underscores allowed between digits. -/
def digitTail : List Char → Bool
  | [] => true
  | '_' :: c :: rest => isAsciiDigit c && digitTail rest
  | c :: rest => isAsciiDigit c && digitTail rest

/-- Nonempty digit run with optional internal underscores. -/
def digitRun : List Char → Bool
  | [] => false
  | c :: rest => isAsciiDigit c && digitTail rest

/-- Value of a digit string, underscores already removed. -/
def digitsVal (l : List Char) : Nat :=
  l.foldl (fun a c => a * 10 + (c.toNat - 48)) 0

/-- Python int() applied to a string: strip whitespace, optional sign, then
a digit run; None models the ValueError raise. -/
def pyIntOfString (s : String) : Option Int :=
  let t := pyStrip s.toList
  match t with
  | '+' :: rest =>
    if digitRun rest then
      some (Int.ofNat (digitsVal (rest.filter (fun c => !(c == '_')))))
    else none
  | '-' :: rest =>
    if digitRun rest then
      some (-(Int.ofNat (digitsVal (rest.filter (fun c => !(c == '_'))))))
    else none
  | _ =>
    if digitRun t then
      some (Int.ofNat (digitsVal (t.filter (fun c => !(c == '_')))))
    else none

/-- The flat row produced by flatten_transaction: RAW_COLUMNS plus the
count_as_new_injury_registration entry the flags dict always carries. -/
structure FlatRow where
  transaction_id : Option Int
  api_date : Option String
  effective_date : Option String
  resolution_date : Option String
  event_date : Option String
  year : Option Int
  type_code : Option String
  type_desc : Option String
  description : String
  person_id : Option Int
  person_name : Option String
  from_team_id : Option Int
  from_team_name : Option String
  to_team_id : Option Int
  to_team_name : Option String
  is_injury_related : Nat
  injury_event_type : String
  is_il_placement : Nat
  is_il_activation : Nat
  is_il_transfer : Nat
  is_rehab_assignment : Nat
  is_covid_il : Nat
  il_days_bucket : Option String
  count_as_new_injury_registration : Nat
deriving DecidableEq, Repr

/-- flatten_transaction of the script.  None models the only possible raise:
int() applied to the first four characters of a truthy event date that do
not form an integer literal. -/
def flatten_transaction (tx : Tx) : Option FlatRow :=
  let description := match tx.description with
    | some s => s
    | none => ""
  let event_date := choose_event_date tx
  let yearStep : Option (Option Int) := match event_date with
    | some s =>
      if s = "" then some none
      else (pyIntOfString (String.mk (s.toList.take 4))).map some
    | none => some none
  match yearStep with
  | none => none
  | some year =>
    let flags := classify_injury description
    some
      { transaction_id := tx.id
        api_date := tx.date
        effective_date := tx.effectiveDate
        resolution_date := tx.resolutionDate
        event_date := event_date
        year := year
        type_code := tx.typeCode
        type_desc := tx.typeDesc
        description := description
        person_id := safe_get_person_id tx.person
        person_name := safe_get_person_name tx.person
        from_team_id := safe_get_team_id tx.fromTeam
        from_team_name := safe_get_team_name tx.fromTeam
        to_team_id := safe_get_team_id tx.toTeam
        to_team_name := safe_get_team_name tx.toTeam
        is_injury_related := flags.is_injury_related
        injury_event_type := flags.injury_event_type
        is_il_placement := flags.is_il_placement
        is_il_activation := flags.is_il_activation
        is_il_transfer := flags.is_il_transfer
        is_rehab_assignment := flags.is_rehab_assignment
        is_covid_il := flags.is_covid_il
        il_days_bucket := flags.il_days_bucket
        count_as_new_injury_registration :=
          flags.count_as_new_injury_registration }
/-- Proleptic Gregorian calendar date, the value domain of Python's
datetime.date. -/
structure Date where
  year : Nat
  month : Nat
  day : Nat
deriving DecidableEq, Repr

/-- Gregorian leap-year rule. -/
def isLeap (y : Nat) : Bool :=
  (y % 4 == 0 && !(y % 100 == 0)) || y % 400 == 0

/-- Length of a month in the given year. -/
def daysInMonth (y m : Nat) : Nat :=
  if m = 2 then (if isLeap y then 29 else 28)
  else if m = 4 ∨ m = 6 ∨ m = 9 ∨ m = 11 then 30
  else 31

/-- The invariant datetime.date enforces on construction. -/
def Date.Valid (d : Date) : Prop :=
  1 ≤ d.year ∧ 1 ≤ d.month ∧ d.month ≤ 12 ∧ 1 ≤ d.day ∧
    d.day ≤ daysInMonth d.year d.month

instance (d : Date) : Decidable d.Valid := by
  unfold Date.Valid
  infer_instance

/-- Days of year y that precede month m (month 1 has none). -/
def daysBeforeMonth (y : Nat) : Nat → Nat
  | 0 => 0
  | 1 => 0
  | m + 2 => daysBeforeMonth y (m + 1) + daysInMonth y (m + 1)

/-- Number of leap years in 1 .. n. -/
def leapsBefore (n : Nat) : Nat := n / 4 - n / 100 + n / 400

/-- Days strictly before January 1 of year y, so that day one of year one
has ordinal 1, exactly as date.toordinal. -/
def daysBeforeYear (y : Nat) : Nat :=
  365 * (y - 1) + leapsBefore (y - 1)

/-- date.toordinal of Python. -/
def Date.toOrdinal (d : Date) : Nat :=
  daysBeforeYear d.year + daysBeforeMonth d.year d.month + d.day

/-- Lexicographic comparison of dates, the comparison of datetime.date. -/
def Date.le (a b : Date) : Bool :=
  decide (a.year < b.year ∨ (a.year = b.year ∧
    (a.month < b.month ∨ (a.month = b.month ∧ a.day ≤ b.day))))

/-- Calendar successor: the effect of adding timedelta(days=1). -/
def Date.nextDay (d : Date) : Date :=
  if d.day < daysInMonth d.year d.month then ⟨d.year, d.month, d.day + 1⟩
  else if d.month < 12 then ⟨d.year, d.month + 1, 1⟩
  else ⟨d.year + 1, 1, 1⟩

/-- The while-loop of daterange with an explicit fuel bound; the loop guard
cur <= end is checked every round exactly as in the script, so any fuel at
least the number of remaining days yields the loop's output. -/
def daterangeAux (e : Date) : Nat → Date → List Date
  | 0, _ => []
  | fuel + 1, cur =>
    if cur.le e then cur :: daterangeAux e fuel cur.nextDay else []

/-- daterange of the script: every day from start to e inclusive. -/
def daterange (start e : Date) : List Date :=
  daterangeAux e (e.toOrdinal + 1 - start.toOrdinal) start

/-- Decimal digit character for a value below ten. -/
def digChar : Nat → Char
  | 0 => '0'
  | 1 => '1'
  | 2 => '2'
  | 3 => '3'
  | 4 => '4'
  | 5 => '5'
  | 6 => '6'
  | 7 => '7'
  | 8 => '8'
  | _ => '9'

/-- Decimal digits of n, most significant first, with explicit fuel so that
the definition is structural; fuel n + 1 always suffices. -/
def natDigsAux : Nat → Nat → List Char
  | 0, _ => []
  | fuel + 1, n =>
    if n < 10 then [digChar n]
    else natDigsAux fuel (n / 10) ++ [digChar (n % 10)]

/-- Decimal rendering of a natural number, no padding. -/
def natDigs (n : Nat) : List Char := natDigsAux (n + 1) n

/-- Zero-fill on the left to width w, the %0wd of isoformat. -/
def zfill (w : Nat) (l : List Char) : List Char :=
  List.replicate (w - l.length) '0' ++ l

/-- date.isoformat of Python: YYYY-MM-DD with zero padding. -/
def Date.isoformat (d : Date) : String :=
  String.mk (zfill 4 (natDigs d.year) ++ '-' :: zfill 2 (natDigs d.month) ++
    '-' :: zfill 2 (natDigs d.day))

/-- One row of the daily CSV, field for field the dict built by
build_daily_series. -/
structure DailyRow where
  date : String
  year : Nat
  injury_registrations : Nat
  injury_related_transactions : Nat
  il_activations : Nat
  il_transfers : Nat
  rehab_assignments : Nat
deriving DecidableEq, Repr

/-- The grouping key of build_daily_series: the event_date of a row when it
is truthy, skipped otherwise (the continue of the script). -/
def rowKey (r : FlatRow) : Option String :=
  match r.event_date with
  | some s => if s = "" then none else some s
  | none => none

/-- build_daily_series of the script.  The script accumulates a Counter per
distinct event_date and then reads the per-day totals back while walking
daterange; since natural-number addition is commutative and associative,
the per-day Counter entry equals the plain sum of the corresponding field
over the rows whose key is that day, which is how the grouping is written
here. -/
def build_daily_series (injury_rows : List FlatRow) (start_date end_date : Date) :
    List DailyRow :=
  (daterange start_date end_date).map fun d =>
    let key := d.isoformat
    let group := injury_rows.filter (fun r => rowKey r == some key)
    { date := key
      year := d.year
      injury_registrations :=
        (group.map (fun r => r.count_as_new_injury_registration)).sum
      injury_related_transactions := group.length
      il_activations := (group.map (fun r => r.is_il_activation)).sum
      il_transfers := (group.map (fun r => r.is_il_transfer)).sum
      rehab_assignments := (group.map (fun r => r.is_rehab_assignment)).sum }
/-- Lexicographic strict order on character lists by code point, the string
comparison Python applies to the event-date keys. -/
def strLtB : List Char → List Char → Bool
  | [], [] => false
  | [], _ :: _ => true
  | _ :: _, [] => false
  | a :: as, b :: bs =>
    decide (a.toNat < b.toNat) || (a.toNat == b.toNat && strLtB as bs)

/-- The sort key of the script: (event_date or "", transaction_id or 0). -/
def sortKey (r : FlatRow) : List Char × Int :=
  ((r.event_date.getD "").toList, r.transaction_id.getD 0)

/-- Comparison of sort keys: ascending by the pair, the tuple order of
Python. -/
def keyLe (a b : FlatRow) : Bool :=
  let d1 := (sortKey a).1
  let d2 := (sortKey b).1
  strLtB d1 d2 || (d1 == d2 && decide ((sortKey a).2 ≤ (sortKey b).2))

/-- list.sort of the script: a stable sort by the key, here realised by the
stable merge sort. -/
def pySortRows (rows : List FlatRow) : List FlatRow :=
  rows.mergeSort keyLe

/-- str() of an integer, for CSV cells. -/
def intStr (i : Int) : String :=
  if i < 0 then String.mk ('-' :: natDigs i.natAbs) else String.mk (natDigs i.natAbs)

/-- One CSV field under the minimal quoting of csv.writer: quoted, with
inner quotes doubled, when the value holds a comma, a quote or a line
break. -/
def csvField (s : String) : String :=
  if s.toList.any (fun c => c == ',' || c == '"' || c == '\r' || c == '\n') then
    String.mk ('"' :: (s.toList.foldr
      (fun c acc => if c == '"' then '"' :: '"' :: acc else c :: acc) ['"']))
  else s

/-- An optional string cell: csv writes None as the empty field. -/
def cellStr (o : Option String) : String := csvField (o.getD "")

/-- An optional integer cell. -/
def cellInt (o : Option Int) : String :=
  match o with
  | some i => csvField (intStr i)
  | none => ""

/-- A natural-number cell (the 0/1 flags and counters). -/
def cellNat (n : Nat) : String := csvField (intStr (Int.ofNat n))

/-- Cells of one flat row in RAW_COLUMNS order. -/
def rawCells (r : FlatRow) : List String :=
  [cellInt r.transaction_id, cellStr r.api_date, cellStr r.effective_date,
   cellStr r.resolution_date, cellStr r.event_date, cellInt r.year,
   cellStr r.type_code, cellStr r.type_desc, csvField r.description,
   cellInt r.person_id, cellStr r.person_name, cellInt r.from_team_id,
   cellStr r.from_team_name, cellInt r.to_team_id, cellStr r.to_team_name,
   cellNat r.is_injury_related, csvField r.injury_event_type,
   cellNat r.is_il_placement, cellNat r.is_il_activation,
   cellNat r.is_il_transfer, cellNat r.is_rehab_assignment,
   cellNat r.is_covid_il, cellStr r.il_days_bucket]

/-- Cells of one injury row: INJURY_COLUMNS order, RAW_COLUMNS plus the
count flag. -/
def injuryCells (r : FlatRow) : List String :=
  rawCells r ++ [cellNat r.count_as_new_injury_registration]

/-- Cells of one daily row in DAILY_COLUMNS order. -/
def dailyCells (r : DailyRow) : List String :=
  [csvField r.date, cellNat r.year, cellNat r.injury_registrations,
   cellNat r.injury_related_transactions, cellNat r.il_activations,
   cellNat r.il_transfers, cellNat r.rehab_assignments]

/-- A CSV file body: header and rows, each line closed by the CRLF
terminator of csv.writer. -/
def csvText (header : List String) (rows : List (List String)) : String :=
  String.join ((header :: rows).map
    (fun line => String.intercalate "," line ++ "\r\n"))

/-- RAW_COLUMNS of the script. -/
def RAW_COLUMNS : List String :=
  ["transaction_id", "api_date", "effective_date", "resolution_date",
   "event_date", "year", "type_code", "type_desc", "description",
   "person_id", "person_name", "from_team_id", "from_team_name",
   "to_team_id", "to_team_name", "is_injury_related", "injury_event_type",
   "is_il_placement", "is_il_activation", "is_il_transfer",
   "is_rehab_assignment", "is_covid_il", "il_days_bucket"]

/-- INJURY_COLUMNS of the script. -/
def INJURY_COLUMNS : List String :=
  RAW_COLUMNS ++ ["count_as_new_injury_registration"]

/-- DAILY_COLUMNS of the script. -/
def DAILY_COLUMNS : List String :=
  ["date", "year", "injury_registrations", "injury_related_transactions",
   "il_activations", "il_transfers", "rehab_assignments"]

/-- The data path of main, from the per-year transactions arrays of the
fetched responses to the three tables: flatten every transaction in fetch
order, sort by (event_date, transaction_id), filter the injury subset
(whose count-normalisation pass is the identity on the integer flags), and
aggregate the daily series over January 1 of the first year to December 31
of the last.  None models the fatal abort, in which case no file is
written. -/
def runPipeline (startYear endYear : Nat) (yearly : List (List Tx)) :
    Option (List FlatRow × List FlatRow × List DailyRow) :=
  (yearly.flatten.mapM flatten_transaction).map fun all_rows =>
    let sorted := pySortRows all_rows
    let injury_rows := sorted.filter (fun r => r.is_injury_related == 1)
    (sorted, injury_rows,
      build_daily_series injury_rows ⟨startYear, 1, 1⟩ ⟨endYear, 12, 31⟩)

/-- The bytes of the three CSV files produced by a successful run. -/
def renderRun (startYear endYear : Nat) (yearly : List (List Tx)) :
    Option (String × String × String) :=
  (runPipeline startYear endYear yearly).map fun t =>
    (csvText RAW_COLUMNS (t.1.map rawCells),
     csvText INJURY_COLUMNS (t.2.1.map injuryCells),
     csvText DAILY_COLUMNS (t.2.2.map dailyCells))

/-- Stated from the spec for comparison: the priority selection of
injury_event_type from the individual detection flags, transfer first, then
placement, activation, rehab, the generic keyword, and finally
non_injury. -/
def specEventTypePriority (transfer placement activation rehab related : Nat) :
    String :=
  if transfer = 1 then "il_transfer"
  else if placement = 1 then "il_placement"
  else if activation = 1 then "il_activation"
  else if rehab = 1 then "rehab_assignment"
  else if related = 1 then "injury_other"
  else "non_injury"

/-- Stated from the spec for comparison: the first non-null value among
record date, effective date and resolution date, regardless of emptiness. -/
def specFirstNonNull (tx : Tx) : Option String :=
  match tx.date with
  | some s => some s
  | none =>
    match tx.effectiveDate with
    | some s => some s
    | none => tx.resolutionDate

/-- The amended reading of the event-date rule: the first value that is both
present and nonempty wins; when all three are falsy the chain returns the
resolution-date field unchanged. -/
def specFirstTruthy (tx : Tx) : Option String :=
  if tx.date ≠ none ∧ tx.date ≠ some "" then tx.date
  else if tx.effectiveDate ≠ none ∧ tx.effectiveDate ≠ some "" then
    tx.effectiveDate
  else tx.resolutionDate

/-- A transaction with every optional field absent. -/
def emptyTx : Tx :=
  { id := none, date := none, effectiveDate := none, resolutionDate := none,
    typeCode := none, typeDesc := none, description := none, person := none,
    fromTeam := none, toTeam := none }

/-- A transaction whose date cannot be parsed into a year. -/
def txMalformedDate : Tx := { emptyTx with date := some "oops-date" }

/-- A transaction whose record date is present but empty. -/
def txEmptyDate : Tx :=
  { emptyTx with date := some "", effectiveDate := some "2020-05-05" }

/-- An injury row with the given event date, count flag and per-category
flags, every other column blank: building block of concrete instances. -/
def mkInjuryRow (ed : Option String) (cnt act tra reh : Nat) : FlatRow :=
  { transaction_id := none, api_date := none, effective_date := none,
    resolution_date := none, event_date := ed, year := none,
    type_code := none, type_desc := none, description := "",
    person_id := none, person_name := none, from_team_id := none,
    from_team_name := none, to_team_id := none, to_team_name := none,
    is_injury_related := 1, injury_event_type := "injury_other",
    is_il_placement := 0, is_il_activation := act, is_il_transfer := tra,
    is_rehab_assignment := reh, is_covid_il := 0, il_days_bucket := none,
    count_as_new_injury_registration := cnt }

/-- An injury row carrying a count of one but no event date at all. -/
def cexRow : FlatRow := mkInjuryRow none 1 0 0 0

/-- A transaction with only an effective date, used to instantiate the
event-date theorem. -/
def txW : Tx := { emptyTx with effectiveDate := some "2016-07-01" }

/-- The flat row flatten_transaction produces from txW. -/
def row1 : FlatRow :=
  { transaction_id := none, api_date := none,
    effective_date := some "2016-07-01", resolution_date := none,
    event_date := some "2016-07-01", year := some 2016, type_code := none,
    type_desc := none, description := "", person_id := none,
    person_name := none, from_team_id := none, from_team_name := none,
    to_team_id := none, to_team_name := none, is_injury_related := 0,
    injury_event_type := "non_injury", is_il_placement := 0,
    is_il_activation := 0, is_il_transfer := 0, is_rehab_assignment := 0,
    is_covid_il := 0, il_days_bucket := none,
    count_as_new_injury_registration := 0 }

/-- C1: for every description string, classify_injury assigns
injury_event_type to exactly one of the six labels, chosen from the
detection flags by the strict priority order transfer, placement,
activation, rehab, generic injury keyword, non-injury, first match
winning. -/
theorem classify_event_type_priority (s : String) :
    (classify_injury s).injury_event_type =
      specEventTypePriority (classify_injury s).is_il_transfer
        (classify_injury s).is_il_placement
        (classify_injury s).is_il_activation
        (classify_injury s).is_rehab_assignment
        (classify_injury s).is_injury_related ∧
    ((classify_injury s).injury_event_type = "il_transfer" ∨
     (classify_injury s).injury_event_type = "il_placement" ∨
     (classify_injury s).injury_event_type = "il_activation" ∨
     (classify_injury s).injury_event_type = "rehab_assignment" ∨
     (classify_injury s).injury_event_type = "injury_other" ∨
     (classify_injury s).injury_event_type = "non_injury") := by
  simp only [classify_injury]
  cases ilTransferSearch ((pyStrip s.toList).map pyToLower) <;>
    cases ilPlacementSearch ((pyStrip s.toList).map pyToLower) <;>
      cases ilActivationSearch ((pyStrip s.toList).map pyToLower) <;>
        cases tokenSearch ((pyStrip s.toList).map pyToLower)
            ("rehab assignment".toList) <;>
          cases INJURY_KEYWORDS.any
              (fun k => containsSub ((pyStrip s.toList).map pyToLower) k) <;>
            simp [specEventTypePriority, toInt01]

/-- C2: for every description string, count_as_new_injury_registration is 1
iff is_il_placement is 1 and is_il_transfer is 0, and 0 otherwise; in
particular it is never 1 when is_il_placement is 0. -/
theorem classify_count_iff_placement_not_transfer (s : String) :
    ((classify_injury s).count_as_new_injury_registration = 1 ↔
      ((classify_injury s).is_il_placement = 1 ∧
       (classify_injury s).is_il_transfer = 0)) ∧
    ((classify_injury s).count_as_new_injury_registration = 1 ∨
     (classify_injury s).count_as_new_injury_registration = 0) ∧
    ((classify_injury s).is_il_placement = 0 →
      (classify_injury s).count_as_new_injury_registration = 0) := by
  simp only [classify_injury]
  cases ilTransferSearch ((pyStrip s.toList).map pyToLower) <;>
    cases ilPlacementSearch ((pyStrip s.toList).map pyToLower) <;>
      simp [toInt01]

/-- C8: the classifier output on the placement example of the spec. -/
theorem classify_placement_example :
    (classify_injury
        "Player X placed on the 10-day injured list retroactive to date").is_injury_related = 1 ∧
    (classify_injury
        "Player X placed on the 10-day injured list retroactive to date").is_il_placement = 1 ∧
    (classify_injury
        "Player X placed on the 10-day injured list retroactive to date").is_il_transfer = 0 ∧
    (classify_injury
        "Player X placed on the 10-day injured list retroactive to date").injury_event_type = "il_placement" ∧
    (classify_injury
        "Player X placed on the 10-day injured list retroactive to date").il_days_bucket = some "10-day" ∧
    (classify_injury
        "Player X placed on the 10-day injured list retroactive to date").count_as_new_injury_registration = 1 := by
  decide

/-- A word-bounded occurrence is in particular a substring occurrence. -/
theorem tokenAt_containsSub {s : List Char} {i : Nat} {w : List Char}
    (h : tokenAt s i w = true) : containsSub s w = true := by
  unfold tokenAt at h
  rw [Bool.and_eq_true, Bool.and_eq_true] at h
  obtain ⟨⟨hm, -⟩, -⟩ := h
  have hle : i + w.length ≤ s.length := by
    unfold matchesAt at hm
    rw [Bool.and_eq_true] at hm
    exact of_decide_eq_true hm.1
  unfold containsSub
  rw [List.any_eq_true]
  exact ⟨i, List.mem_range.mpr (by omega), hm⟩

/-- The common tail of the IL patterns forces one of the two generic list
keywords to occur in the text. -/
theorem ilMentionAfter_keyword {s : List Char} {p : Nat}
    (h : ilMentionAfter s p = true) :
    containsSub s ("injured list".toList) = true ∨
    containsSub s ("disabled list".toList) = true := by
  unfold ilMentionAfter at h
  rw [List.any_eq_true] at h
  obtain ⟨m, -, hm⟩ := h
  rw [Bool.and_eq_true, Bool.and_eq_true, Bool.or_eq_true] at hm
  rcases hm.2 with h1 | h1
  · exact Or.inl (tokenAt_containsSub h1)
  · exact Or.inr (tokenAt_containsSub h1)

/-- Any of the specific pattern detections of classify_injury forces one of
the generic INJURY_KEYWORDS to be contained in the text. -/
theorem specific_search_keyword {L : List Char}
    (h : ilPlacementSearch L = true ∨ ilTransferSearch L = true ∨
      ilActivationSearch L = true ∨
      tokenSearch L ("rehab assignment".toList) = true ∨
      containsSub L ("covid-19 injured list".toList) = true) :
    INJURY_KEYWORDS.any (fun k => containsSub L k) = true := by
  have mem_of :
      containsSub L ("injured list".toList) = true ∨
      containsSub L ("disabled list".toList) = true ∨
      containsSub L ("covid-19 injured list".toList) = true ∨
      containsSub L ("rehab assignment".toList) = true →
      INJURY_KEYWORDS.any (fun k => containsSub L k) = true := by
    intro hc
    rw [List.any_eq_true]
    rcases hc with h1 | h1 | h1 | h1
    · exact ⟨_, by simp [INJURY_KEYWORDS], h1⟩
    · exact ⟨_, by simp [INJURY_KEYWORDS], h1⟩
    · exact ⟨_, by simp [INJURY_KEYWORDS], h1⟩
    · exact ⟨_, by simp [INJURY_KEYWORDS], h1⟩
  rcases h with h | h | h | h | h
  · unfold ilPlacementSearch at h
    rw [List.any_eq_true] at h
    obtain ⟨i, -, hi⟩ := h
    rw [Bool.and_eq_true, List.any_eq_true] at hi
    obtain ⟨-, j, -, hj⟩ := hi
    rw [Bool.and_eq_true, Bool.and_eq_true, Bool.and_eq_true] at hj
    rcases ilMentionAfter_keyword hj.2 with h1 | h1
    · exact mem_of (Or.inl h1)
    · exact mem_of (Or.inr (Or.inl h1))
  · unfold ilTransferSearch at h
    rw [List.any_eq_true] at h
    obtain ⟨i, -, hi⟩ := h
    rw [Bool.and_eq_true, List.any_eq_true] at hi
    obtain ⟨-, j, -, hj⟩ := hi
    rw [Bool.and_eq_true, Bool.and_eq_true, Bool.or_eq_true] at hj
    rcases hj.2 with h1 | h1 <;>
    · rw [Bool.and_eq_true] at h1
      first
      | exact mem_of (Or.inl (tokenAt_containsSub h1.1))
      | exact mem_of (Or.inr (Or.inl (tokenAt_containsSub h1.1)))
  · unfold ilActivationSearch at h
    rw [List.any_eq_true] at h
    obtain ⟨i, -, hi⟩ := h
    rw [Bool.or_eq_true, Bool.and_eq_true, Bool.and_eq_true] at hi
    have htail : fromTheThenIl L (i + 9) = true ∨ fromTheThenIl L (i + 10) = true := by
      rcases hi with h1 | h1
      · exact Or.inl h1.2
      · exact Or.inr h1.2
    have hment : containsSub L ("injured list".toList) = true ∨
        containsSub L ("disabled list".toList) = true := by
      rcases htail with h1 | h1 <;>
      · unfold fromTheThenIl at h1
        rw [List.any_eq_true] at h1
        obtain ⟨j, -, hj⟩ := h1
        rw [Bool.and_eq_true, Bool.and_eq_true, Bool.and_eq_true] at hj
        exact ilMentionAfter_keyword hj.2
    rcases hment with h1 | h1
    · exact mem_of (Or.inl h1)
    · exact mem_of (Or.inr (Or.inl h1))
  · unfold tokenSearch at h
    rw [List.any_eq_true] at h
    obtain ⟨i, -, hi⟩ := h
    exact mem_of (Or.inr (Or.inr (Or.inr (tokenAt_containsSub hi))))
  · exact mem_of (Or.inr (Or.inr (Or.inl h)))

/-- C10: every specific flag forces is_injury_related, and the non_injury
label is equivalent to is_injury_related being 0. -/
theorem specific_flags_force_injury_related (s : String) :
    (((classify_injury s).is_il_placement = 1 ∨
      (classify_injury s).is_il_transfer = 1 ∨
      (classify_injury s).is_il_activation = 1 ∨
      (classify_injury s).is_rehab_assignment = 1 ∨
      (classify_injury s).is_covid_il = 1) →
     (classify_injury s).is_injury_related = 1) ∧
    ((classify_injury s).injury_event_type = "non_injury" ↔
      (classify_injury s).is_injury_related = 0) := by
  simp only [classify_injury]
  have key := @specific_search_keyword ((pyStrip s.toList).map pyToLower)
  cases hg : INJURY_KEYWORDS.any
      (fun k => containsSub ((pyStrip s.toList).map pyToLower) k)
  · cases hp : ilPlacementSearch ((pyStrip s.toList).map pyToLower)
    · cases ht : ilTransferSearch ((pyStrip s.toList).map pyToLower)
      · cases ha : ilActivationSearch ((pyStrip s.toList).map pyToLower)
        · cases hr : tokenSearch ((pyStrip s.toList).map pyToLower)
              ("rehab assignment".toList)
          · cases hc : containsSub ((pyStrip s.toList).map pyToLower)
                ("covid-19 injured list".toList)
            · simp [toInt01, hp, ht, ha, hr, hc]
            · exact absurd (key (Or.inr (Or.inr (Or.inr (Or.inr hc))))) (by rw [hg]; exact Bool.false_ne_true)
          · exact absurd (key (Or.inr (Or.inr (Or.inr (Or.inl hr))))) (by rw [hg]; exact Bool.false_ne_true)
        · exact absurd (key (Or.inr (Or.inr (Or.inl ha)))) (by rw [hg]; exact Bool.false_ne_true)
      · exact absurd (key (Or.inr (Or.inl ht))) (by rw [hg]; exact Bool.false_ne_true)
    · exact absurd (key (Or.inl hp)) (by rw [hg]; exact Bool.false_ne_true)
  · simp only [toInt01]
    cases ht : ilTransferSearch ((pyStrip s.toList).map pyToLower) <;>
      cases hp : ilPlacementSearch ((pyStrip s.toList).map pyToLower) <;>
        cases ha : ilActivationSearch ((pyStrip s.toList).map pyToLower) <;>
          cases hr : tokenSearch ((pyStrip s.toList).map pyToLower)
              ("rehab assignment".toList) <;>
            simp

/-- C5 counterexample: a transaction whose record date has a non-numeric
four-character prefix makes flatten_transaction raise (modelled none), so
flatten_transaction does not tolerate every malformed date value. -/
theorem flatten_malformed_date_cex :
    flatten_transaction txMalformedDate = none := by decide

/-- C5 amended: flatten_transaction succeeds whenever the chosen event
date, if present and nonempty, starts with a parsable four-character year
prefix; missing or empty optional fields alone never make it fail. -/
theorem flatten_total_unless_unparsable_year (tx : Tx)
    (h : ∀ s : String, choose_event_date tx = some s → s ≠ "" →
      (pyIntOfString (String.mk (s.toList.take 4))).isSome = true) :
    (flatten_transaction tx).isSome = true := by
  unfold flatten_transaction
  cases hce : choose_event_date tx with
  | none => simp
  | some s =>
    by_cases hs : s = ""
    · simp [hs]
    · have hp := h s hce hs
      cases hp2 : pyIntOfString (String.mk (s.toList.take 4)) with
      | none => rw [hp2] at hp; exact absurd hp (by decide)
      | some v =>
        simp only [String.toList] at hp2 ⊢
        simp [hs, hp2]

/-- C5 amended, instance: the all-absent transaction flattens
successfully. -/
theorem flatten_total_unless_unparsable_year_witness :
    (flatten_transaction emptyTx).isSome = true :=
  flatten_total_unless_unparsable_year emptyTx
    (fun _ hs _ => Option.noConfusion hs)

/-- C6 counterexample: with a present-but-empty record date the script's
event date is not the first non-null of the three date fields; the empty
string is skipped as falsy. -/
theorem event_date_not_first_nonnull_cex :
    flatten_transaction txEmptyDate ≠ none ∧
    (flatten_transaction txEmptyDate).map (fun r => r.event_date) ≠
      some (specFirstNonNull txEmptyDate) := by decide

/-- C6 amended: the derived event date is the first present-and-nonempty
value among record date, effective date and resolution date (falling back
to the resolution field unchanged when all are falsy), and the derived
year of a produced flat row is the integer parse of the first four
characters of a truthy event date, absent otherwise. -/
theorem event_date_first_truthy (tx : Tx) (r : FlatRow)
    (hr : flatten_transaction tx = some r) :
    choose_event_date tx = specFirstTruthy tx ∧
    r.event_date = choose_event_date tx ∧
    r.year = (match r.event_date with
      | some s => if s = "" then none
                  else pyIntOfString (String.mk (s.toList.take 4))
      | none => none) := by
  have h1 : choose_event_date tx = specFirstTruthy tx := by
    unfold choose_event_date pyOrStr specFirstTruthy
    rcases tx.date with - | ds
    · rcases tx.effectiveDate with - | es
      · simp
      · by_cases hs : es = "" <;> simp [hs]
    · by_cases hs : ds = ""
      · rcases tx.effectiveDate with - | es
        · simp [hs]
        · by_cases hs2 : es = "" <;> simp [hs, hs2]
      · simp [hs]
  refine ⟨h1, ?_⟩
  unfold flatten_transaction at hr
  simp only [String.toList] at hr ⊢
  cases hce : choose_event_date tx with
  | none =>
    rw [hce] at hr
    simp only [Option.some.injEq] at hr
    subst hr
    simp [hce]
  | some s =>
    rw [hce] at hr
    by_cases hs : s = ""
    · subst hs
      simp at hr
      subst hr
      simp [hce]
    · simp only [if_neg hs] at hr
      cases hp : pyIntOfString (String.mk (s.data.take 4)) with
      | none =>
        rw [hp] at hr
        simp at hr
      | some v =>
        rw [hp] at hr
        simp at hr
        subst hr
        simp [hce, hs, hp]

/-- C6 amended, instance: the effective date of txW is chosen and its year
parsed. -/
theorem event_date_first_truthy_witness :
    choose_event_date txW = specFirstTruthy txW ∧
    row1.event_date = choose_event_date txW ∧
    row1.year = (match row1.event_date with
      | some s => if s = "" then none
                  else pyIntOfString (String.mk (s.toList.take 4))
      | none => none) :=
  event_date_first_truthy txW row1 (by decide)

/-- Transitivity of the character-list order. -/
theorem strLtB_trans : ∀ {a b c : List Char},
    strLtB a b = true → strLtB b c = true → strLtB a c = true
  | [], [], _ :: _, _, _ => rfl
  | [], _ :: _, _ :: _, _, _ => rfl
  | a :: as, b :: bs, c :: cs, hab, hbc => by
    unfold strLtB at hab hbc ⊢
    rw [Bool.or_eq_true, Bool.and_eq_true] at hab hbc ⊢
    rcases hab with hab | ⟨hab1, hab2⟩ <;> rcases hbc with hbc | ⟨hbc1, hbc2⟩
    · exact Or.inl (by
        have h1 := of_decide_eq_true hab
        have h2 := of_decide_eq_true hbc
        exact decide_eq_true (by omega))
    · have h2 : b.toNat = c.toNat := by simpa using hbc1
      exact Or.inl (by
        have h1 := of_decide_eq_true hab
        exact decide_eq_true (by omega))
    · have h1 : a.toNat = b.toNat := by simpa using hab1
      exact Or.inl (by
        have h2 := of_decide_eq_true hbc
        exact decide_eq_true (by omega))
    · have h1 : a.toNat = b.toNat := by simpa using hab1
      have h2 : b.toNat = c.toNat := by simpa using hbc1
      exact Or.inr ⟨by simpa using h1.trans h2, strLtB_trans hab2 hbc2⟩

/-- Two lists unrelated by the strict order in either direction are
equal. -/
theorem strLtB_conn : ∀ {a b : List Char},
    strLtB a b = false → strLtB b a = false → a = b
  | [], [], _, _ => rfl
  | [], _ :: _, h, _ => by simp [strLtB] at h
  | _ :: _, [], _, h => by simp [strLtB] at h
  | a :: as, b :: bs, hab, hba => by
    unfold strLtB at hab hba
    rw [Bool.or_eq_false_iff, Bool.and_eq_false_iff] at hab hba
    have h1 : ¬ a.toNat < b.toNat := of_decide_eq_false hab.1
    have h2 : ¬ b.toNat < a.toNat := of_decide_eq_false hba.1
    have heq : a.toNat = b.toNat := by omega
    have hc : a = b := Char.ext (UInt32.eq_of_val_eq (Fin.ext heq))
    subst hc
    rcases hab.2 with h3 | h3
    · simp at h3
    · rcases hba.2 with h4 | h4
      · simp at h4
      · exact congrArg (a :: ·) (strLtB_conn h3 h4)

/-- The sort comparison is transitive. -/
theorem keyLe_trans (a b c : FlatRow) (hab : keyLe a b = true)
    (hbc : keyLe b c = true) : keyLe a c = true := by
  unfold keyLe at hab hbc ⊢
  rw [Bool.or_eq_true, Bool.and_eq_true] at hab hbc ⊢
  rcases hab with hab | ⟨hab1, hab2⟩ <;> rcases hbc with hbc | ⟨hbc1, hbc2⟩
  · exact Or.inl (strLtB_trans hab hbc)
  · have : (sortKey b).1 = (sortKey c).1 := by
      simpa using hbc1
    exact Or.inl (this ▸ hab)
  · have : (sortKey a).1 = (sortKey b).1 := by
      simpa using hab1
    exact Or.inl (this ▸ hbc)
  · have h1 : (sortKey a).1 = (sortKey b).1 := by simpa using hab1
    have h2 : (sortKey b).1 = (sortKey c).1 := by simpa using hbc1
    refine Or.inr ⟨by simp [h1, h2], ?_⟩
    have i1 := of_decide_eq_true hab2
    have i2 := of_decide_eq_true hbc2
    exact decide_eq_true (le_trans i1 i2)

/-- The sort comparison is total. -/
theorem keyLe_total (a b : FlatRow) : (keyLe a b || keyLe b a) = true := by
  unfold keyLe
  rw [Bool.or_eq_true, Bool.or_eq_true, Bool.or_eq_true,
    Bool.and_eq_true, Bool.and_eq_true]
  cases hab : strLtB (sortKey a).1 (sortKey b).1
  · cases hba : strLtB (sortKey b).1 (sortKey a).1
    · have heq := strLtB_conn hab hba
      rcases le_total (sortKey a).2 (sortKey b).2 with h | h
      · exact Or.inl (Or.inr ⟨by simp [heq], decide_eq_true h⟩)
      · exact Or.inr (Or.inr ⟨by simp [heq], decide_eq_true h⟩)
    · exact Or.inr (Or.inl rfl)
  · exact Or.inl (Or.inl rfl)

/-- C7: the row set of the flat table is sorted ascending by the key
(event_date or empty string, transaction_id or 0), it is a permutation of
the flattened input rows, and the pipeline writes the flat table in
exactly this order. -/
theorem flat_rows_sorted (rows : List FlatRow) (sy ey : Nat)
    (yearly : List (List Tx)) :
    (pySortRows rows).Pairwise (fun a b => keyLe a b = true) ∧
    (pySortRows rows).Perm rows ∧
    ((runPipeline sy ey yearly).map (fun t => t.1) =
      (yearly.flatten.mapM flatten_transaction).map pySortRows) ∧
    ((renderRun sy ey yearly).map (fun t => t.1) =
      (runPipeline sy ey yearly).map
        (fun t => csvText RAW_COLUMNS (t.1.map rawCells))) := by
  refine ⟨?_, ?_, ?_, ?_⟩
  · exact @List.sorted_mergeSort FlatRow keyLe keyLe_trans keyLe_total rows
  · exact List.mergeSort_perm rows keyLe
  · cases h : yearly.flatten.mapM flatten_transaction <;>
      simp only [runPipeline, h] <;> rfl
  · cases h : yearly.flatten.mapM flatten_transaction <;>
      simp only [runPipeline, renderRun, h] <;> rfl

/-- C9: the data path from the fetched per-year transaction arrays to the
three tables and their CSV bytes is a pure function of those arrays: equal
fetched responses give identical tables and byte-identical files. -/
theorem pipeline_deterministic (sy ey : Nat) (a b : List (List Tx))
    (h : a = b) :
    runPipeline sy ey a = runPipeline sy ey b ∧
    renderRun sy ey a = renderRun sy ey b := by
  subst h
  exact ⟨rfl, rfl⟩

/-- C9, instance: two identical empty fetch results render identically. -/
theorem pipeline_deterministic_witness :
    runPipeline 2015 2015 [[]] = runPipeline 2015 2015 [[]] ∧
    renderRun 2015 2015 [[]] = renderRun 2015 2015 [[]] :=
  pipeline_deterministic 2015 2015 [[]] [[]] rfl

/-- Every month has at least one day. -/
theorem daysInMonth_pos (y m : Nat) : 1 ≤ daysInMonth y m := by
  unfold daysInMonth
  split_ifs <;> omega

/-- No month exceeds thirty-one days. -/
theorem daysInMonth_le31 (y m : Nat) : daysInMonth y m ≤ 31 := by
  unfold daysInMonth
  split_ifs <;> omega

/-- Peeling one month off the days-before-month count. -/
theorem daysBeforeMonth_succ (y m : Nat) (hm : 1 ≤ m) :
    daysBeforeMonth y (m + 1) = daysBeforeMonth y m + daysInMonth y m := by
  cases m with
  | zero => omega
  | succ k => rfl

/-- The days-before-month count never decreases with the month. -/
theorem daysBeforeMonth_le_succ (y k : Nat) :
    daysBeforeMonth y k ≤ daysBeforeMonth y (k + 1) := by
  cases k with
  | zero => simp [daysBeforeMonth]
  | succ j =>
    rw [daysBeforeMonth_succ y (j + 1) (by omega)]
    exact Nat.le_add_right _ _

/-- Monotonicity of the days-before-month count. -/
theorem daysBeforeMonth_mono (y : Nat) {m m' : Nat} (h : m ≤ m') :
    daysBeforeMonth y m ≤ daysBeforeMonth y m' := by
  induction m' with
  | zero =>
    have hm : m = 0 := by omega
    subst hm
    exact le_refl _
  | succ k ih =>
    rcases Nat.lt_or_ge m (k + 1) with h2 | h2
    · exact le_trans (ih (by omega)) (daysBeforeMonth_le_succ y k)
    · have hm : m = k + 1 := by omega
      subst hm
      exact le_refl _

/-- A full year holds 365 days plus the leap day. -/
theorem daysInYear_eq (y : Nat) :
    daysBeforeMonth y 13 = 365 + (if isLeap y then 1 else 0) := by
  cases h : isLeap y <;> simp [daysBeforeMonth, daysInMonth, h]

/-- The days-before-year count advances by exactly one year length. -/
theorem daysBeforeYear_succ (y : Nat) (hy : 1 ≤ y) :
    daysBeforeYear (y + 1) = daysBeforeYear y + daysBeforeMonth y 13 := by
  obtain ⟨k, rfl⟩ : ∃ k, y = k + 1 := ⟨y - 1, by omega⟩
  have hiff : isLeap (k + 1) = true ↔
      (((k + 1) % 4 = 0 ∧ ¬ (k + 1) % 100 = 0) ∨ (k + 1) % 400 = 0) := by
    simp [isLeap]
  rw [daysInYear_eq]
  unfold daysBeforeYear leapsBefore
  simp only [Nat.add_sub_cancel]
  cases h : isLeap (k + 1)
  · have hp : ¬ (((k + 1) % 4 = 0 ∧ ¬ (k + 1) % 100 = 0) ∨
        (k + 1) % 400 = 0) := by
      intro hc
      rw [hiff.mpr hc] at h
      exact Bool.noConfusion h
    simp only [Bool.false_eq_true, if_false]
    omega
  · have hp := hiff.mp h
    simp only [if_true]
    omega

/-- The days-before-year count is monotone. -/
theorem daysBeforeYear_le_succ (y : Nat) :
    daysBeforeYear y ≤ daysBeforeYear (y + 1) := by
  cases y with
  | zero => simp [daysBeforeYear, leapsBefore]
  | succ k =>
    rw [daysBeforeYear_succ (k + 1) (by omega)]
    exact Nat.le_add_right _ _

/-- A whole year fits before any later year begins. -/
theorem daysBeforeYear_year_end_le {y y' : Nat} (hy : 1 ≤ y) (h : y < y') :
    daysBeforeYear y + daysBeforeMonth y 13 ≤ daysBeforeYear y' := by
  induction y' with
  | zero => omega
  | succ k ih =>
    rcases Nat.lt_or_ge y k with h2 | h2
    · exact le_trans (ih h2) (daysBeforeYear_le_succ k)
    · have hk : y = k := by omega
      subst hk
      rw [daysBeforeYear_succ y hy]

/-- The ordinal of a valid date stays within its year. -/
theorem toOrdinal_le_year_end (d : Date) (hv : d.Valid) :
    d.toOrdinal ≤ daysBeforeYear d.year + daysBeforeMonth d.year 13 := by
  obtain ⟨h1, h2, h3, h4, h5⟩ := hv
  unfold Date.toOrdinal
  have hstep := daysBeforeMonth_succ d.year d.month h2
  have hmono := daysBeforeMonth_mono d.year (show d.month + 1 ≤ 13 by omega)
  omega

/-- The ordinal is strictly monotone with respect to the field-lexicographic
order on valid dates. -/
theorem toOrdinal_lt_of_lt {a b : Date} (ha : a.Valid) (hb : b.Valid)
    (h : a.year < b.year ∨ (a.year = b.year ∧ (a.month < b.month ∨
      (a.month = b.month ∧ a.day < b.day)))) :
    a.toOrdinal < b.toOrdinal := by
  obtain ⟨ay, am, ad⟩ := a
  obtain ⟨byy, bm, bd⟩ := b
  obtain ⟨ha1, ha2, ha3, ha4, ha5⟩ := ha
  obtain ⟨hb1, hb2, hb3, hb4, hb5⟩ := hb
  simp only at ha1 ha2 ha3 ha4 ha5 hb1 hb2 hb3 hb4 hb5 h
  unfold Date.toOrdinal
  simp only
  rcases h with h | ⟨hy, h⟩
  · have hae : daysBeforeMonth ay am + ad ≤ daysBeforeMonth ay 13 := by
      have hstep := daysBeforeMonth_succ ay am ha2
      have hmono := daysBeforeMonth_mono ay (show am + 1 ≤ 13 by omega)
      omega
    have hyy := daysBeforeYear_year_end_le ha1 h
    omega
  · subst hy
    rcases h with h | ⟨hm, h⟩
    · have hstep := daysBeforeMonth_succ ay am ha2
      have hmono := daysBeforeMonth_mono ay (show am + 1 ≤ bm by omega)
      omega
    · subst hm
      omega

/-- The ordinal separates valid dates. -/
theorem toOrdinal_inj {a b : Date} (ha : a.Valid) (hb : b.Valid)
    (h : a.toOrdinal = b.toOrdinal) : a = b := by
  by_contra hne
  obtain ⟨ay, am, ad⟩ := a
  obtain ⟨byy, bm, bd⟩ := b
  have htri : (ay < byy ∨ (ay = byy ∧ (am < bm ∨ (am = bm ∧ ad < bd)))) ∨
      (byy < ay ∨ (byy = ay ∧ (bm < am ∨ (bm = am ∧ bd < ad)))) := by
    simp only [Date.mk.injEq, not_and] at hne
    omega
  rcases htri with h1 | h1
  · exact absurd h (Nat.ne_of_lt (toOrdinal_lt_of_lt ha hb h1))
  · exact absurd h.symm (Nat.ne_of_lt (toOrdinal_lt_of_lt hb ha h1))

/-- The comparison of dates agrees with the comparison of their
ordinals. -/
theorem le_iff_ord {a b : Date} (ha : a.Valid) (hb : b.Valid) :
    a.le b = true ↔ a.toOrdinal ≤ b.toOrdinal := by
  unfold Date.le
  rw [decide_eq_true_iff]
  constructor
  · intro h
    by_cases heq : a.year = b.year ∧ a.month = b.month ∧ a.day = b.day
    · obtain ⟨ay, am, ad⟩ := a
      obtain ⟨byy, bm, bd⟩ := b
      simp only at heq
      obtain ⟨rfl, rfl, rfl⟩ := heq
      exact le_refl _
    · have hlt : a.year < b.year ∨ (a.year = b.year ∧ (a.month < b.month ∨
          (a.month = b.month ∧ a.day < b.day))) := by
        rcases h with h | ⟨h1, h⟩
        · exact Or.inl h
        · rcases h with h | ⟨h2, h⟩
          · exact Or.inr ⟨h1, Or.inl h⟩
          · refine Or.inr ⟨h1, Or.inr ⟨h2, ?_⟩⟩
            rcases Nat.lt_or_ge a.day b.day with h3 | h3
            · exact h3
            · exact absurd ⟨h1, h2, by omega⟩ heq
      exact le_of_lt (toOrdinal_lt_of_lt ha hb hlt)
  · intro h
    by_contra hc
    have hgt : b.year < a.year ∨ (b.year = a.year ∧ (b.month < a.month ∨
        (b.month = a.month ∧ b.day < a.day))) := by omega
    have := toOrdinal_lt_of_lt hb ha hgt
    omega

/-- The calendar successor preserves validity. -/
theorem nextDay_valid {d : Date} (h : d.Valid) : d.nextDay.Valid := by
  obtain ⟨h1, h2, h3, h4, h5⟩ := h
  unfold Date.nextDay
  split_ifs with hd hm
  · refine ⟨h1, h2, h3, ?_, ?_⟩
    · show 1 ≤ d.day + 1
      omega
    · show d.day + 1 ≤ daysInMonth d.year d.month
      omega
  · refine ⟨h1, ?_, ?_, ?_, ?_⟩
    · show 1 ≤ d.month + 1
      omega
    · show d.month + 1 ≤ 12
      omega
    · show (1 : Nat) ≤ 1
      omega
    · show (1 : Nat) ≤ daysInMonth d.year (d.month + 1)
      exact daysInMonth_pos _ _
  · refine ⟨?_, ?_, ?_, ?_, ?_⟩
    · show 1 ≤ d.year + 1
      omega
    · show (1 : Nat) ≤ 1
      omega
    · show (1 : Nat) ≤ 12
      omega
    · show (1 : Nat) ≤ 1
      omega
    · show (1 : Nat) ≤ daysInMonth (d.year + 1) 1
      exact daysInMonth_pos _ _

/-- The calendar successor advances the ordinal by one. -/
theorem toOrdinal_nextDay {d : Date} (h : d.Valid) :
    d.nextDay.toOrdinal = d.toOrdinal + 1 := by
  obtain ⟨h1, h2, h3, h4, h5⟩ := h
  unfold Date.nextDay
  split_ifs with hd hm
  · simp only [Date.toOrdinal]
    omega
  · simp only [Date.toOrdinal]
    have hstep := daysBeforeMonth_succ d.year d.month h2
    omega
  · simp only [Date.toOrdinal]
    have hm12 : d.month = 12 := by omega
    rw [hm12] at hd h5 ⊢
    have hdim : daysInMonth d.year 12 = 31 := rfl
    have hstep : daysBeforeMonth d.year 13 =
        daysBeforeMonth d.year 12 + daysInMonth d.year 12 :=
      daysBeforeMonth_succ d.year 12 (by omega)
    have hye := daysBeforeYear_succ d.year h1
    have hdbm1 : daysBeforeMonth (d.year + 1) 1 = 0 := rfl
    omega

/-- Loop invariant of daterange: with fuel at least the number of remaining
days, the loop emits exactly the valid dates whose ordinals lie between the
cursor and the end, in strictly ascending ordinal order. -/
theorem daterangeAux_spec (e : Date) (he : e.Valid) :
    ∀ (n : Nat) (s : Date), s.Valid → e.toOrdinal + 1 - s.toOrdinal ≤ n →
      ((daterangeAux e n s).length = e.toOrdinal + 1 - s.toOrdinal) ∧
      (∀ d : Date, d ∈ daterangeAux e n s ↔
        (d.Valid ∧ s.toOrdinal ≤ d.toOrdinal ∧ d.toOrdinal ≤ e.toOrdinal)) ∧
      (daterangeAux e n s).Pairwise (fun x y => x.toOrdinal < y.toOrdinal) := by
  intro n
  induction n with
  | zero =>
    intro s hs hf
    have h0 : e.toOrdinal + 1 - s.toOrdinal = 0 := by omega
    refine ⟨by simp [daterangeAux, h0], ?_, by simp [daterangeAux]⟩
    intro d
    simp only [daterangeAux, List.not_mem_nil, false_iff]
    rintro ⟨-, h1, h2⟩
    omega
  | succ k ih =>
    intro s hs hf
    by_cases hse : s.le e = true
    · have hord : s.toOrdinal ≤ e.toOrdinal := (le_iff_ord hs he).mp hse
      have hnv : s.nextDay.Valid := nextDay_valid hs
      have hno : s.nextDay.toOrdinal = s.toOrdinal + 1 := toOrdinal_nextDay hs
      have hrw : daterangeAux e (k + 1) s = s :: daterangeAux e k s.nextDay := by
        simp [daterangeAux, hse]
      obtain ⟨ihlen, ihmem, ihpw⟩ := ih s.nextDay hnv (by omega)
      refine ⟨?_, ?_, ?_⟩
      · rw [hrw]
        simp only [List.length_cons, ihlen]
        omega
      · intro d
        rw [hrw]
        simp only [List.mem_cons]
        constructor
        · rintro (rfl | hd)
          · exact ⟨hs, le_refl _, hord⟩
          · obtain ⟨hv, h1, h2⟩ := (ihmem d).mp hd
            exact ⟨hv, by omega, h2⟩
        · rintro ⟨hv, h1, h2⟩
          by_cases heq : d.toOrdinal = s.toOrdinal
          · exact Or.inl (toOrdinal_inj hv hs heq)
          · exact Or.inr ((ihmem d).mpr ⟨hv, by omega, h2⟩)
      · rw [hrw]
        refine List.Pairwise.cons ?_ ihpw
        intro x hx
        obtain ⟨-, h1, -⟩ := (ihmem x).mp hx
        omega
    · have hord : ¬ s.toOrdinal ≤ e.toOrdinal := fun hcon =>
        hse ((le_iff_ord hs he).mpr hcon)
      have hrw : daterangeAux e (k + 1) s = [] := by
        simp [daterangeAux, hse]
      refine ⟨?_, ?_, by rw [hrw]; exact List.Pairwise.nil⟩
      · rw [hrw]
        simp only [List.length_nil]
        omega
      · intro d
        rw [hrw]
        simp only [List.not_mem_nil, false_iff]
        rintro ⟨-, h1, h2⟩
        omega

/-- Value of a digit character below ten. -/
theorem digChar_toNat : ∀ k : Nat, k < 10 → (digChar k).toNat = 48 + k := by
  decide

/-- Appending one digit multiplies the value by ten. -/
theorem digitsVal_append (l : List Char) (c : Char) :
    digitsVal (l ++ [c]) = 10 * digitsVal l + (c.toNat - 48) := by
  unfold digitsVal
  rw [List.foldl_append]
  simp only [List.foldl_cons, List.foldl_nil]
  omega

/-- With enough fuel the digit rendering decodes back to its input. -/
theorem natDigsAux_val : ∀ (fuel n : Nat), n < fuel →
    digitsVal (natDigsAux fuel n) = n := by
  intro fuel
  induction fuel with
  | zero => intro n h; omega
  | succ k ih =>
    intro n h
    unfold natDigsAux
    by_cases h10 : n < 10
    · rw [if_pos h10]
      show digitsVal [digChar n] = n
      unfold digitsVal
      simp only [List.foldl_cons, List.foldl_nil]
      have hd := digChar_toNat n h10
      omega
    · rw [if_neg h10]
      rw [digitsVal_append]
      have hlt : n / 10 < k := by omega
      rw [ih (n / 10) hlt]
      have h2 := digChar_toNat (n % 10) (by omega)
      omega

/-- The decimal rendering decodes back to its input. -/
theorem digitsVal_natDigs (n : Nat) : digitsVal (natDigs n) = n :=
  natDigsAux_val (n + 1) n (Nat.lt_succ_self n)

/-- Leading zeros do not change the decoded value. -/
theorem digitsVal_zeros (k : Nat) (l : List Char) :
    digitsVal (List.replicate k '0' ++ l) = digitsVal l := by
  induction k with
  | zero => simp
  | succ m ih =>
    rw [List.replicate_succ, List.cons_append]
    unfold digitsVal at ih ⊢
    rw [List.foldl_cons]
    show List.foldl _ 0 (List.replicate m '0' ++ l) = List.foldl _ 0 l
    exact ih

/-- Zero filling never changes the decoded value. -/
theorem digitsVal_zfill (w : Nat) (l : List Char) :
    digitsVal (zfill w l) = digitsVal l := by
  unfold zfill
  exact digitsVal_zeros _ l

/-- Month and day parts of isoformat have width exactly two. -/
theorem zfill2_len : ∀ n : Nat, n < 100 → (zfill 2 (natDigs n)).length = 2 := by
  decide

/-- isoformat separates valid dates. -/
theorem isoformat_inj {a b : Date} (ha : a.Valid) (hb : b.Valid)
    (h : a.isoformat = b.isoformat) : a = b := by
  obtain ⟨ay, am, ad⟩ := a
  obtain ⟨byy, bm, bd⟩ := b
  obtain ⟨ha1, ha2, ha3, ha4, ha5⟩ := ha
  obtain ⟨hb1, hb2, hb3, hb4, hb5⟩ := hb
  simp only at ha1 ha2 ha3 ha4 ha5 hb1 hb2 hb3 hb4 hb5
  unfold Date.isoformat at h
  simp only at h
  have h' : zfill 4 (natDigs ay) ++
      ('-' :: (zfill 2 (natDigs am) ++ '-' :: zfill 2 (natDigs ad))) =
      zfill 4 (natDigs byy) ++
      ('-' :: (zfill 2 (natDigs bm) ++ '-' :: zfill 2 (natDigs bd))) := by
    have hq := congrArg String.data h
    simpa using hq
  have lma : (zfill 2 (natDigs am)).length = 2 := zfill2_len am (by omega)
  have lmb : (zfill 2 (natDigs bm)).length = 2 := zfill2_len bm (by omega)
  have lda : (zfill 2 (natDigs ad)).length = 2 :=
    zfill2_len ad (by have := daysInMonth_le31 ay am; omega)
  have ldb : (zfill 2 (natDigs bd)).length = 2 :=
    zfill2_len bd (by have := daysInMonth_le31 byy bm; omega)
  have hlen : (zfill 4 (natDigs ay)).length = (zfill 4 (natDigs byy)).length := by
    have hl := congrArg List.length h'
    simp only [List.length_append, List.length_cons, lma, lmb, lda, ldb] at hl
    omega
  obtain ⟨hy, ht⟩ := List.append_inj h' hlen
  injection ht with hd0 ht2
  obtain ⟨hm, hd2⟩ := List.append_inj ht2 (by rw [lma, lmb])
  injection hd2 with hd1 hd3
  have hyv : ay = byy := by
    have hv := congrArg digitsVal hy
    rw [digitsVal_zfill, digitsVal_zfill, digitsVal_natDigs,
      digitsVal_natDigs] at hv
    exact hv
  have hmv : am = bm := by
    have hv := congrArg digitsVal hm
    rw [digitsVal_zfill, digitsVal_zfill, digitsVal_natDigs,
      digitsVal_natDigs] at hv
    exact hv
  have hdv : ad = bd := by
    have hv := congrArg digitsVal hd3
    rw [digitsVal_zfill, digitsVal_zfill, digitsVal_natDigs,
      digitsVal_natDigs] at hv
    exact hv
  subst hyv
  subst hmv
  subst hdv
  rfl

/-- The day lists produced by daterange carry no repeated isoformat key:
needed for the per-day grouping to count every row at most once. -/
theorem daterange_iso_nodup (s e : Date) (hs : s.Valid) (he : e.Valid) :
    ((daterange s e).map Date.isoformat).Nodup := by
  obtain ⟨-, hmem, hpw⟩ := daterangeAux_spec e he _ s hs (le_refl _)
  have hpw2 : (daterange s e).Pairwise
      (fun x y => Date.isoformat x ≠ Date.isoformat y) := by
    refine List.Pairwise.imp_of_mem ?_ hpw
    intro x y hx hy hlt hiso
    have hvx := ((hmem x).mp hx).1
    have hvy := ((hmem y).mp hy).1
    have hxy := isoformat_inj hvx hvy hiso
    subst hxy
    omega
  exact (List.pairwise_map).mpr hpw2

/-- C3: over any valid inclusive range the daily series has exactly one row
per calendar day, in ascending date order, with zero counters on days no
row matches; the concrete range 2015-01-01 .. 2015-01-03 always yields
three rows. -/
theorem build_daily_series_dense (rows : List FlatRow) (s e : Date)
    (hs : s.Valid) (he : e.Valid) (hse : s.le e = true) :
    ((build_daily_series rows s e).map (fun r => r.date) =
      (daterange s e).map Date.isoformat) ∧
    ((build_daily_series rows s e).length =
      e.toOrdinal + 1 - s.toOrdinal) ∧
    ((build_daily_series rows s e).map (fun r => r.date)).Nodup ∧
    (∀ d : Date, d.Valid →
      (d ∈ daterange s e ↔ (s.le d = true ∧ d.le e = true))) ∧
    (daterange s e).Pairwise (fun x y => x.toOrdinal < y.toOrdinal) ∧
    (∀ row ∈ build_daily_series rows s e,
      (∀ r ∈ rows, rowKey r ≠ some row.date) →
      row.injury_registrations = 0 ∧ row.injury_related_transactions = 0 ∧
      row.il_activations = 0 ∧ row.il_transfers = 0 ∧
      row.rehab_assignments = 0) ∧
    (∀ rows' : List FlatRow,
      (build_daily_series rows' ⟨2015, 1, 1⟩ ⟨2015, 1, 3⟩).length = 3) := by
  obtain ⟨hlen, hmem, hpw⟩ := daterangeAux_spec e he _ s hs (le_refl _)
  have hmap : (build_daily_series rows s e).map (fun r => r.date) =
      (daterange s e).map Date.isoformat := by
    unfold build_daily_series
    rw [List.map_map]
    rfl
  refine ⟨hmap, ?_, ?_, ?_, hpw, ?_, ?_⟩
  · unfold build_daily_series
    rw [List.length_map]
    exact hlen
  · rw [hmap]
    exact daterange_iso_nodup s e hs he
  · intro d hv
    unfold daterange
    rw [hmem d]
    constructor
    · rintro ⟨-, h1, h2⟩
      exact ⟨(le_iff_ord hs hv).mpr h1, (le_iff_ord hv he).mpr h2⟩
    · rintro ⟨h1, h2⟩
      exact ⟨hv, (le_iff_ord hs hv).mp h1, (le_iff_ord hv he).mp h2⟩
  · intro row hrow hnone
    unfold build_daily_series at hrow
    rw [List.mem_map] at hrow
    obtain ⟨d, hd, rfl⟩ := hrow
    have hfil : rows.filter
        (fun r => rowKey r == some d.isoformat) = [] := by
      rw [List.filter_eq_nil_iff]
      intro r hr
      simpa using hnone r hr
    simp [hfil]
  · intro rows'
    unfold build_daily_series
    rw [List.length_map]
    decide

/-- C3, instance: the three-day range of the spec, on the empty row set. -/
theorem build_daily_series_dense_witness :
    (build_daily_series [] ⟨2015, 1, 1⟩ ⟨2015, 1, 3⟩).length =
      (⟨2015, 1, 3⟩ : Date).toOrdinal + 1 -
        (⟨2015, 1, 1⟩ : Date).toOrdinal :=
  (build_daily_series_dense [] ⟨2015, 1, 1⟩ ⟨2015, 1, 3⟩
    (by decide) (by decide) (by decide)).2.1

/-- Summing a mapped filter equals summing a pointwise indicator. -/
theorem sum_filter_map {α : Type} (p : α → Bool) (f : α → Nat) (l : List α) :
    ((l.filter p).map f).sum =
      (l.map (fun x => if p x then f x else 0)).sum := by
  induction l with
  | nil => rfl
  | cons x xs ih => by_cases h : p x <;> simp [List.filter_cons, h, ih]

/-- Sums distribute over pointwise addition. -/
theorem sum_map_add {α : Type} (g h : α → Nat) (l : List α) :
    (l.map (fun b => g b + h b)).sum = (l.map g).sum + (l.map h).sum := by
  induction l with
  | nil => rfl
  | cons x xs ih =>
    simp only [List.map_cons, List.sum_cons, ih]
    omega

/-- Double sums over two lists commute. -/
theorem sum_map_swap {α β : Type} (f : α → β → Nat) (as : List α)
    (bs : List β) :
    (as.map (fun a => (bs.map (f a)).sum)).sum =
    (bs.map (fun b => (as.map (fun a => f a b)).sum)).sum := by
  induction as with
  | nil => simp
  | cons x xs ih =>
    simp only [List.map_cons, List.sum_cons, ih]
    rw [← sum_map_add]

/-- Mapped sums respect pointwise equality on the list. -/
theorem sum_map_congr {α : Type} (l : List α) (f g : α → Nat)
    (h : ∀ x ∈ l, f x = g x) : (l.map f).sum = (l.map g).sum := by
  induction l with
  | nil => rfl
  | cons x xs ih =>
    simp only [List.map_cons, List.sum_cons]
    rw [h x (List.mem_cons_self x xs), ih (fun y hy => h y (List.mem_cons_of_mem x hy))]

/-- Over a duplicate-free key list an equality indicator sums to at most one
hit. -/
theorem sum_indicator_nodup (v : Nat) (k : String) :
    ∀ l : List String, l.Nodup →
      (l.map (fun x => if k = x then v else 0)).sum =
        if k ∈ l then v else 0 := by
  intro l
  induction l with
  | nil => simp
  | cons x xs ih =>
    intro hnd
    rw [List.nodup_cons] at hnd
    simp only [List.map_cons, List.sum_cons]
    by_cases hk : k = x
    · subst hk
      rw [ih hnd.2]
      simp [hnd.1]
    · rw [ih hnd.2]
      simp [hk]

/-- Indicator sums with 0/1 values count the rows whose value is one and
whose test holds. -/
theorem sum_if_eq_countP (q : FlatRow → Bool) :
    ∀ l : List FlatRow,
      (∀ r ∈ l, r.count_as_new_injury_registration ≤ 1) →
      (l.map (fun r =>
        if q r then r.count_as_new_injury_registration else 0)).sum =
      l.countP (fun r =>
        (r.count_as_new_injury_registration == 1) && q r) := by
  intro l
  induction l with
  | nil => intro _; rfl
  | cons x xs ih =>
    intro hb
    have hx := hb x (List.mem_cons_self x xs)
    have hrest := ih (fun r hr => hb r (List.mem_cons_of_mem x hr))
    simp only [List.map_cons, List.sum_cons, List.countP_cons, hrest]
    interval_cases h : x.count_as_new_injury_registration <;>
      cases hq : q x <;> simp [hq] <;> omega

/-- C4 counterexample: with one injury row carrying the count flag but no
event date, the daily series sums to zero while the row count with flag one
is one — the claim fails for arbitrary row lists. -/
theorem daily_sum_mismatch_cex :
    ¬ (((build_daily_series [cexRow] ⟨2015, 1, 1⟩ ⟨2015, 1, 1⟩).map
          (fun r => r.injury_registrations)).sum =
        ([cexRow].countP
          (fun r => r.count_as_new_injury_registration == 1))) := by
  decide

/-- C4 amended: when every count flag is 0 or 1, the daily series sums the
injury_registrations counter to exactly the number of rows whose flag is 1
and whose truthy event date equals the isoformat of some day of the
requested range; rows with no, empty, or out-of-range event dates are
counted nowhere. -/
theorem daily_sum_eq_inrange_count (rows : List FlatRow) (s e : Date)
    (hs : s.Valid) (he : e.Valid)
    (hb : ∀ r ∈ rows, r.count_as_new_injury_registration ≤ 1) :
    ((build_daily_series rows s e).map
        (fun r => r.injury_registrations)).sum =
    rows.countP (fun r =>
      (r.count_as_new_injury_registration == 1) &&
      (match rowKey r with
       | some k => ((daterange s e).map Date.isoformat).contains k
       | none => false)) := by
  have hnd := daterange_iso_nodup s e hs he
  have h1 : ((build_daily_series rows s e).map
      (fun r => r.injury_registrations)).sum =
      ((daterange s e).map (fun d => (rows.map (fun r =>
        if rowKey r = some d.isoformat
        then r.count_as_new_injury_registration else 0)).sum)).sum := by
    unfold build_daily_series
    rw [List.map_map]
    refine congrArg List.sum (List.map_congr_left ?_)
    intro d hd
    show ((rows.filter (fun r => rowKey r == some d.isoformat)).map
        (fun r => r.count_as_new_injury_registration)).sum = _
    rw [sum_filter_map]
    refine congrArg List.sum ?_
    refine List.map_congr_left ?_
    intro r hr
    by_cases hkr : rowKey r = some d.isoformat
    · simp [hkr]
    · simp [hkr]
  rw [h1, sum_map_swap]
  have h3 : ∀ r ∈ rows, (((daterange s e).map (fun d =>
      if rowKey r = some d.isoformat
      then r.count_as_new_injury_registration else 0)).sum) =
      (if (match rowKey r with
           | some k => (((daterange s e).map Date.isoformat).contains k)
           | none => false) = true
       then r.count_as_new_injury_registration else 0) := by
    intro r hr
    cases hk : rowKey r with
    | none => simp
    | some k =>
      have hcomp : ((daterange s e).map (fun d =>
          if (some k : Option String) = some d.isoformat
          then r.count_as_new_injury_registration else 0)).sum =
          (((daterange s e).map Date.isoformat).map (fun x =>
            if k = x then r.count_as_new_injury_registration else 0)).sum := by
        rw [List.map_map]
        refine congrArg List.sum (List.map_congr_left ?_)
        intro d hd
        by_cases hkd : k = d.isoformat
        · simp [hkd]
        · simp [hkd, Function.comp]
      rw [hcomp, sum_indicator_nodup _ _ _ hnd]
      by_cases hmem : k ∈ (daterange s e).map Date.isoformat
      · simp [hmem]
      · simp [hmem]
  rw [sum_map_congr rows _ _ h3]
  rw [sum_if_eq_countP _ rows hb]

/-- C4 amended, instance: one in-range row with flag one, one row with no
event date; the daily sum counts exactly the former. -/
theorem daily_sum_eq_inrange_count_witness :
    ((build_daily_series [mkInjuryRow (some "2015-01-02") 1 0 0 0, cexRow]
        ⟨2015, 1, 1⟩ ⟨2015, 1, 3⟩).map
        (fun r => r.injury_registrations)).sum =
    ([mkInjuryRow (some "2015-01-02") 1 0 0 0, cexRow].countP (fun r =>
      (r.count_as_new_injury_registration == 1) &&
      (match rowKey r with
       | some k =>
         (((daterange ⟨2015, 1, 1⟩ ⟨2015, 1, 3⟩).map
            Date.isoformat).contains k)
       | none => false))) :=
  daily_sum_eq_inrange_count
    [mkInjuryRow (some "2015-01-02") 1 0 0 0, cexRow]
    ⟨2015, 1, 1⟩ ⟨2015, 1, 3⟩ (by decide) (by decide) (by decide)
